import Mathlib

/-!
Shallow embedding of the real-time chat subsystem of the skillsyncMaster
repository: `main/consumers.py` (`ChatConsumer`), the chat models in
`main/models.py` (`ChatRoom`, `Message`) and the chat views in
`main/views.py` (`start_chat`, `chat_room`), together with theorems
settling the specification claims about them.
-/

/-- A Django `User` row: primary key and username. Django's `Model.__eq__`
compares rows by primary key, and ORM lookups on a foreign key also
compare by primary key, so every user comparison in the embedded code
goes through `userEq`. -/
structure User where
  id : Nat
  username : String
deriving DecidableEq, Repr

/-- Django model equality (`Model.__eq__`): rows of the same model compare
equal exactly when their primary keys are equal. -/
def userEq (a b : User) : Bool :=
  a.id == b.id

/-- The `ChatRoom` model (`main/models.py`): a private chat room between
two users, with `unique_together ('user1', 'user2')`. -/
structure ChatRoom where
  id : Nat
  user1 : User
  user2 : User
deriving DecidableEq, Repr

/-- The `Message` model (`main/models.py`): one message within a chat
room. `room` holds the foreign key (the room's primary key); `timestamp`
is the server-assigned `auto_now_add` creation time. -/
structure Message where
  room : Nat
  sender : User
  text : String
  timestamp : Nat
deriving DecidableEq, Repr

/-- The durable database state: the `ChatRoom` and `Message` tables in
insertion (primary-key) order, the server clock supplying `auto_now_add`
timestamps (advancing past each insert), and the next `ChatRoom` primary
key. -/
structure DB where
  rooms : List ChatRoom
  messages : List Message
  now : Nat
  nextRoomId : Nat
deriving DecidableEq, Repr

/-- The in-process channel-layer group registry: group name to the list of
channel names registered in it. The in-memory channel layer keys channels
per group by channel name, so `group_add` has set semantics and
`group_discard` removes a channel if present and is a no-op otherwise. -/
abbrev Groups := List (String × List String)

/-- Channels currently registered in group `g` (empty when the group has
no entry). -/
def getGroup (groups : Groups) (g : String) : List String :=
  (groups.lookup g).getD []

/-- Replace (or create) the entry of group `g` with the given channels. -/
def setGroup (groups : Groups) (g : String) (chans : List String) : Groups :=
  match groups with
  | [] => [(g, chans)]
  | (g', cs) :: rest =>
    if g' = g then (g, chans) :: rest else (g', cs) :: setGroup rest g chans

/-- `channel_layer.group_add`: register a channel in a group (adding an
already-present channel is a no-op, as the layer stores channels keyed by
channel name). -/
def group_add (groups : Groups) (g c : String) : Groups :=
  let cs := getGroup groups g
  setGroup groups g (if c ∈ cs then cs else cs ++ [c])

/-- `channel_layer.group_discard`: remove a channel from a group if it is
present; removing an absent channel is a no-op. -/
def group_discard (groups : Groups) (g c : String) : Groups :=
  setGroup groups g ((getGroup groups g).filter (fun x => x ≠ c))

/-- A decoded JSON value, the result of a successful `json.loads`. -/
inductive Json where
  | jnull
  | jbool (b : Bool)
  | jnum (n : Int)
  | jstr (s : String)
  | jarr (xs : List Json)
  | jobj (fields : List (String × Json))
deriving Repr

/-- The outcome of `json.loads` on an inbound frame's text: either a
`json.JSONDecodeError` or a decoded value. -/
inductive Decoded where
  | fail
  | ok (j : Json)
deriving Repr

/-- One `ChatConsumer` instance: the room id taken from the URL route,
this connection's channel name, and `scope['user']`, where `none` models
an unauthenticated `AnonymousUser` (for which `is_authenticated` is
false). -/
structure Session where
  room_id : Nat
  channel_name : String
  user : Option User
deriving DecidableEq, Repr

/-- The group name the consumer joins:
`self.room_group_name = f'chat_\x7bself.room_id\x7d'`. -/
def room_group_name (room_id : Nat) : String :=
  "chat_" ++ toString room_id

/-- `ChatConsumer.is_room_member`: `ChatRoom.objects.get(id=self.room_id)`
is modelled by `find?` over the rooms table (primary keys are unique);
the `ChatRoom.DoesNotExist` branch returns `false`. The membership test
`self.user in [room.user1, room.user2]` compares rows by primary key. -/
def is_room_member (db : DB) (room_id : Nat) (user : User) : Bool :=
  match db.rooms.find? (fun r => r.id == room_id) with
  | some room => userEq user room.user1 || userEq user room.user2
  | none => false

/-- The outcome of `ChatConsumer.connect` as seen by the client:
`rejected` is `self.close()` with no accept frame, `accepted` is
`self.accept()`. -/
inductive ConnectResult where
  | rejected
  | accepted
deriving DecidableEq, Repr

/-- `ChatConsumer.connect`: close (never accept) when the user is not
authenticated or is not a member of the target room; otherwise register
the channel in the room's group and accept. -/
def connect (db : DB) (groups : Groups) (s : Session) : Groups × ConnectResult :=
  match s.user with
  | none => (groups, .rejected)
  | some u =>
    if is_room_member db s.room_id u then
      (group_add groups (room_group_name s.room_id) s.channel_name, .accepted)
    else
      (groups, .rejected)

/-- `ChatConsumer.disconnect`: discard this channel from the room's
group. -/
def disconnect (groups : Groups) (s : Session) : Groups :=
  group_discard groups (room_group_name s.room_id) s.channel_name

/-- `ChatConsumer.save_message`: fetch the room, create a `Message` row
(timestamp assigned from the server clock) and return `True`; every
exception — `ChatRoom.DoesNotExist` in this model — is caught and turned
into `False`. -/
def save_message (db : DB) (room_id : Nat) (user : User) (message : String) :
    DB × Bool :=
  match db.rooms.find? (fun r => r.id == room_id) with
  | some room =>
    ({ db with
        messages := db.messages ++ [⟨room.id, user, message, db.now⟩],
        now := db.now + 1 },
     true)
  | none => (db, false)

/-- The outbound frame `ChatConsumer.chat_message` sends to one client:
a JSON object with the `message` and `username` fields. -/
structure OutFrame where
  message : String
  username : String
deriving DecidableEq, Repr

/-- One delivery of an outbound frame to one channel. -/
structure Delivery where
  channel : String
  frame : OutFrame
deriving DecidableEq, Repr

/-- `ChatConsumer.chat_message`: forward the event's `message` and
`username` fields verbatim to this session's client. -/
def chat_message (event : OutFrame) : OutFrame :=
  { message := event.message, username := event.username }

/-- `channel_layer.group_send`: dispatch the event to every channel
registered in the group; each receiving consumer's `chat_message` handler
produces the frame sent to that client. -/
def group_send (groups : Groups) (g : String) (event : OutFrame) : List Delivery :=
  (getGroup groups g).map (fun c => ⟨c, chat_message event⟩)

/-- Python `str.strip()`: drop leading and trailing whitespace. -/
def pyStrip (s : String) : String :=
  String.mk (((s.data.dropWhile Char.isWhitespace).reverse.dropWhile
    Char.isWhitespace).reverse)

/-- `ChatConsumer.receive`. The code catches only `json.JSONDecodeError`;
`Except.error ()` models any other exception escaping the handler:
`data.get` on a decoded non-dict value and `.strip()` on a non-string
`message` field both raise an uncaught `AttributeError`. On the normal
paths the result carries the updated database and the deliveries fanned
out (the group registry itself is unchanged by `receive`). A missing
`message` key defaults to `''` (`data.get('message', '')`), and an
unauthenticated `scope['user']` cannot be stored as `Message.sender`, so
`save_message` swallows that error and reports failure. -/
def receive (db : DB) (groups : Groups) (s : Session) (text_data : Decoded) :
    Except Unit (DB × List Delivery) :=
  match text_data with
  | .fail => .ok (db, [])
  | .ok (.jobj fields) =>
    match fields.lookup "message" with
    | none => .ok (db, [])
    | some (.jstr raw) =>
      let message := pyStrip raw
      if message = "" then
        .ok (db, [])
      else
        match s.user with
        | none => .ok (db, [])
        | some u =>
          let res := save_message db s.room_id u message
          if res.2 then
            .ok (res.1,
              group_send groups (room_group_name s.room_id)
                { message := message, username := u.username })
          else
            .ok (res.1, [])
    | some _ => .error ()
  | .ok _ => .error ()

/-- The outcome of the `start_chat` view: the warning redirect for trying
to chat with yourself, or a redirect to the room with the given id. -/
inductive StartChatResult where
  | selfChat
  | room (id : Nat)
deriving DecidableEq, Repr

/-- The ORM filter in `start_chat`: a room whose `(user1, user2)` pair
matches the two users in either orientation (foreign-key comparisons are
by primary key). -/
def pairFilter (me other : User) (r : ChatRoom) : Bool :=
  (userEq r.user1 me && userEq r.user2 other) ||
    (userEq r.user1 other && userEq r.user2 me)

/-- `start_chat` (`main/views.py`): refuse chatting with yourself;
otherwise return the existing room for the pair if one exists
(`.first()` on an unordered queryset yields the lowest primary key, the
first match in table order here), else create a room with the pair
sorted by user id (`sorted([request.user, other_user], key=lambda u: u.id)`). -/
def start_chat (db : DB) (me other : User) : DB × StartChatResult :=
  if userEq me other then (db, .selfChat)
  else
    match db.rooms.find? (pairFilter me other) with
    | some chat => (db, .room chat.id)
    | none =>
      let u1 := if me.id ≤ other.id then me else other
      let u2 := if me.id ≤ other.id then other else me
      let rid := db.nextRoomId
      ({ db with rooms := db.rooms ++ [⟨rid, u1, u2⟩], nextRoomId := rid + 1 },
       .room rid)

/-- The message read path of the `chat_room` view
(`room.messages.select_related('sender').order_by('timestamp')`): a
stable sort by `timestamp` of the room's messages, the table being in
insertion order. -/
def roomMessages (db : DB) (room_id : Nat) : List Message :=
  List.insertionSort (fun a b => a.timestamp ≤ b.timestamp)
    (db.messages.filter (fun m => m.room == room_id))

/-- Two rooms hold the same unordered participant pair (participants
compared by primary key). -/
def samePair (r r' : ChatRoom) : Prop :=
  (r.user1.id = r'.user1.id ∧ r.user2.id = r'.user2.id) ∨
    (r.user1.id = r'.user2.id ∧ r.user2.id = r'.user1.id)

/-- No two rooms in the table share an unordered participant pair. -/
def noDupPairs (rooms : List ChatRoom) : Prop :=
  rooms.Pairwise (fun r r' => ¬ samePair r r')

/-- Well-formedness of the message table: rows are in nondecreasing
timestamp order and every timestamp is below the server clock. -/
def wfDB (db : DB) : Prop :=
  db.messages.Pairwise (fun a b => a.timestamp ≤ b.timestamp)
    ∧ ∀ m ∈ db.messages, m.timestamp < db.now

/-- A concrete database: room 1 between alice (id 1) and bob (id 2). -/
def db0 : DB :=
  ⟨[⟨1, ⟨1, "alice"⟩, ⟨2, "bob"⟩⟩], [], 0, 2⟩

/-- Alice's session on room 1. -/
def s0 : Session :=
  ⟨1, "ch_alice", some ⟨1, "alice"⟩⟩

/-- Looking up the group just written by `setGroup` yields exactly the
written channel list. -/
theorem getGroup_setGroup_self (groups : Groups) (g : String) (cs : List String) :
    getGroup (setGroup groups g cs) g = cs := by
  induction groups with
  | nil => simp [setGroup, getGroup, List.lookup]
  | cons p rest ih =>
    obtain ⟨g', cs'⟩ := p
    by_cases h : g' = g
    · subst h
      simp [setGroup, getGroup, List.lookup]
    · have hb : (g == g') = false := by
        simp [Ne.symm h]
      simp only [setGroup, if_neg h, getGroup, List.lookup, hb] at ih ⊢
      exact ih

/-- `setGroup` leaves every other group's channel list unchanged. -/
theorem getGroup_setGroup_ne (groups : Groups) (g g' : String) (cs : List String)
    (h : g' ≠ g) :
    getGroup (setGroup groups g cs) g' = getGroup groups g' := by
  induction groups with
  | nil =>
    have hb : (g' == g) = false := by simp [h]
    simp [setGroup, getGroup, List.lookup, hb]
  | cons p rest ih =>
    obtain ⟨g'', cs''⟩ := p
    by_cases hg : g'' = g
    · subst hg
      have hb : (g' == g'') = false := by simp [h]
      simp [setGroup, getGroup, List.lookup, hb]
    · simp only [setGroup, if_neg hg, getGroup, List.lookup] at ih ⊢
      by_cases he : g' = g''
      · subst he
        simp [List.lookup]
      · have hb : (g' == g'') = false := by simp [he]
        simp only [hb, Bool.false_eq_true, if_false, cond_false] at ih ⊢
        exact ih

/-- Writing a group twice keeps only the second write. -/
theorem setGroup_setGroup (groups : Groups) (g : String) (cs cs' : List String) :
    setGroup (setGroup groups g cs) g cs' = setGroup groups g cs' := by
  induction groups with
  | nil => simp [setGroup]
  | cons p rest ih =>
    obtain ⟨g'', cs''⟩ := p
    by_cases h : g'' = g
    · subst h
      simp [setGroup]
    · simp [setGroup, h, ih]

/-- C2: a connect attempt with no authenticated identity, or whose
authenticated identity is not one of the target room's participants, is
closed with no Broadcast Group registration and no acknowledgment frame;
both rejection cases produce the identical observable outcome
`(groups, .rejected)`, so they are indistinguishable to the client. -/
theorem connect_rejects_unauthorized (db : DB) (groups : Groups) (s : Session)
    (h : s.user = none ∨
      ∃ u, s.user = some u ∧ is_room_member db s.room_id u = false) :
    connect db groups s = (groups, .rejected) := by
  rcases h with h | ⟨u, hu, hm⟩
  · simp [connect, h]
  · simp [connect, hu, hm]

/-- Witness for C2: on the concrete database `db0`, an unauthenticated
session and carol's (non-member) session are both rejected with the group
registry unchanged. -/
theorem connect_rejects_unauthorized_witness :
    connect db0 [] ⟨1, "ch_anon", none⟩ = ([], .rejected)
    ∧ connect db0 [] ⟨1, "ch_carol", some ⟨3, "carol"⟩⟩ = ([], .rejected) :=
  ⟨connect_rejects_unauthorized db0 [] ⟨1, "ch_anon", none⟩ (Or.inl rfl),
   connect_rejects_unauthorized db0 [] ⟨1, "ch_carol", some ⟨3, "carol"⟩⟩
     (Or.inr ⟨⟨3, "carol"⟩, rfl, by decide⟩)⟩

/-- C3: an inbound frame whose `message` field is empty or
whitespace-only after trimming causes no Message Log append, no
broadcast, and the connection stays open (`receive` returns `.ok` with
the database unchanged and no deliveries). -/
theorem receive_blank_message_noop (db : DB) (groups : Groups) (s : Session)
    (fields : List (String × Json)) (raw : String)
    (hfield : fields.lookup "message" = some (.jstr raw))
    (hblank : pyStrip raw = "") :
    receive db groups s (.ok (.jobj fields)) = .ok (db, []) := by
  simp [receive, hfield, hblank]

/-- Witness for C3: a whitespace-only message on alice's session is
dropped silently. -/
theorem receive_blank_message_noop_witness :
    receive db0 [] s0 (.ok (.jobj [("message", .jstr " \t ")])) = .ok (db0, []) :=
  receive_blank_message_noop db0 [] s0 [("message", .jstr " \t ")] " \t " rfl (by decide)

/-- C5: when the target room does not exist, `save_message` returns the
failure value `false` (no exception reaches the transport layer) and
stores nothing, and `receive` on any frame carrying a `message` string
performs no broadcast, sends no error frame, and leaves the connection
open with the database unchanged. -/
theorem save_message_failure_silent (db : DB) (groups : Groups) (s : Session)
    (u : User) (t : String) (fields : List (String × Json)) (raw : String)
    (hroom : db.rooms.find? (fun r => r.id == s.room_id) = none)
    (hfield : fields.lookup "message" = some (.jstr raw)) :
    save_message db s.room_id u t = (db, false)
    ∧ receive db groups s (.ok (.jobj fields)) = .ok (db, []) := by
  have hs : ∀ v t', save_message db s.room_id v t' = (db, false) := by
    intro v t'
    simp [save_message, hroom]
  refine ⟨hs u t, ?_⟩
  by_cases hb : pyStrip raw = ""
  · simp [receive, hfield, hb]
  · cases hu : s.user with
    | none => simp [receive, hfield, hb, hu]
    | some v => simp [receive, hfield, hb, hu, hs]

/-- Witness for C5: on an empty database, appending to room 5 fails with
`false` and a frame carrying "x" is silently dropped. -/
theorem save_message_failure_silent_witness :
    save_message ⟨[], [], 0, 1⟩ 5 ⟨1, "alice"⟩ "x" = (⟨[], [], 0, 1⟩, false)
    ∧ receive ⟨[], [], 0, 1⟩ [] ⟨5, "ch", some ⟨1, "alice"⟩⟩
        (.ok (.jobj [("message", .jstr "x")])) = .ok (⟨[], [], 0, 1⟩, []) :=
  save_message_failure_silent ⟨[], [], 0, 1⟩ [] ⟨5, "ch", some ⟨1, "alice"⟩⟩
    ⟨1, "alice"⟩ "x" [("message", .jstr "x")] "x" rfl rfl

/-- C10: when no room carries the target identifier, `is_room_member`
returns `false` (the `DoesNotExist` branch) rather than raising, and the
connect attempt ends in the same observable outcome
`(groups, .rejected)` as a non-member connect on an existing room. -/
theorem connect_room_missing_rejected (db : DB) (groups : Groups) (s : Session)
    (u : User)
    (hroom : db.rooms.find? (fun r => r.id == s.room_id) = none)
    (hu : s.user = some u) :
    is_room_member db s.room_id u = false
    ∧ connect db groups s = (groups, .rejected) := by
  have hm : is_room_member db s.room_id u = false := by
    simp [is_room_member, hroom]
  exact ⟨hm, by simp [connect, hu, hm]⟩

/-- Witness for C10: alice connecting to the nonexistent room 5 of an
empty database is rejected with no registration. -/
theorem connect_room_missing_rejected_witness :
    is_room_member ⟨[], [], 0, 1⟩ 5 ⟨1, "alice"⟩ = false
    ∧ connect ⟨[], [], 0, 1⟩ [] ⟨5, "ch", some ⟨1, "alice"⟩⟩ = ([], .rejected) :=
  connect_room_missing_rejected ⟨[], [], 0, 1⟩ [] ⟨5, "ch", some ⟨1, "alice"⟩⟩
    ⟨1, "alice"⟩ rfl rfl

/-- C6: deregistering a session from its room's Broadcast Group entry is
idempotent — a second `disconnect` of the same session is a no-op — and
deregistering a session that was never registered (the rejection path)
leaves every group's channel list unchanged; in both cases `disconnect`
is a total function, never an error. -/
theorem disconnect_idempotent (groups : Groups) (s : Session) :
    disconnect (disconnect groups s) s = disconnect groups s
    ∧ (s.channel_name ∉ getGroup groups (room_group_name s.room_id) →
        ∀ g, getGroup (disconnect groups s) g = getGroup groups g) := by
  constructor
  · unfold disconnect group_discard
    rw [getGroup_setGroup_self, setGroup_setGroup]
    congr 1
    exact List.filter_eq_self.mpr fun a ha => (List.mem_filter.mp ha).2
  · intro h g
    unfold disconnect group_discard
    have he : (getGroup groups (room_group_name s.room_id)).filter
        (fun x => x ≠ s.channel_name) = getGroup groups (room_group_name s.room_id) := by
      refine List.filter_eq_self.mpr fun a ha => ?_
      have : a ≠ s.channel_name := fun e => h (e ▸ ha)
      simpa using this
    rw [he]
    by_cases hg : g = room_group_name s.room_id
    · subst hg
      rw [getGroup_setGroup_self]
    · rw [getGroup_setGroup_ne _ _ _ _ hg]

/-- Witness for C6: discarding bob's never-registered channel from the
group of room 1 twice equals discarding it once, and the registered
channel list of the group is untouched. -/
theorem disconnect_idempotent_witness :
    disconnect (disconnect [("chat_1", ["ch_alice"])] ⟨1, "ch_bob", none⟩)
        ⟨1, "ch_bob", none⟩
      = disconnect [("chat_1", ["ch_alice"])] ⟨1, "ch_bob", none⟩
    ∧ getGroup (disconnect [("chat_1", ["ch_alice"])] ⟨1, "ch_bob", none⟩) "chat_1"
      = getGroup [("chat_1", ["ch_alice"])] "chat_1" :=
  ⟨(disconnect_idempotent [("chat_1", ["ch_alice"])] ⟨1, "ch_bob", none⟩).1,
   (disconnect_idempotent [("chat_1", ["ch_alice"])] ⟨1, "ch_bob", none⟩).2
     (by decide) "chat_1"⟩

/-- C1: an inbound frame from a connected, authorized sender whose
payload parses as an object with a string `message` field that is
non-empty after trimming appends exactly one Message Log row — its text
the trimmed input, its sender the connecting user — and fans out one
identical payload `(trimmed message, sender's username)` to every channel
of the room's Broadcast Group, the sender's own channel included when it
is registered there. -/
theorem receive_valid_message_broadcasts (db : DB) (groups : Groups)
    (s : Session) (u : User) (fields : List (String × Json)) (raw : String)
    (hu : s.user = some u)
    (hfield : fields.lookup "message" = some (.jstr raw))
    (hne : pyStrip raw ≠ "")
    (hmem : is_room_member db s.room_id u = true) :
    receive db groups s (.ok (.jobj fields)) =
      .ok ({ db with
              messages := db.messages ++ [⟨s.room_id, u, pyStrip raw, db.now⟩],
              now := db.now + 1 },
        (getGroup groups (room_group_name s.room_id)).map
          (fun c => ⟨c, { message := pyStrip raw, username := u.username }⟩))
    ∧ (s.channel_name ∈ getGroup groups (room_group_name s.room_id) →
        (⟨s.channel_name, { message := pyStrip raw, username := u.username }⟩ : Delivery) ∈
          (getGroup groups (room_group_name s.room_id)).map
            (fun c => (⟨c, { message := pyStrip raw, username := u.username }⟩ : Delivery))) := by
  obtain ⟨r, hfind⟩ : ∃ r, db.rooms.find? (fun r => r.id == s.room_id) = some r := by
    cases hf : db.rooms.find? (fun r => r.id == s.room_id) with
    | none =>
      rw [is_room_member, hf] at hmem
      exact absurd hmem (by simp)
    | some r => exact ⟨r, rfl⟩
  have hrid : r.id = s.room_id := by
    have := List.find?_some hfind
    simpa using this
  constructor
  · simp [receive, hfield, hne, hu, save_message, hfind, group_send, chat_message, hrid]
  · intro h
    exact List.mem_map.mpr ⟨s.channel_name, h, rfl⟩

/-- Witness for C1: alice sends " hi " on room 1 with both alice's and
bob's channels registered; one row "hi" is stored and the identical frame
reaches both channels, alice's own included. -/
theorem receive_valid_message_broadcasts_witness :
    receive db0 [("chat_1", ["ch_alice", "ch_bob"])] s0
        (.ok (.jobj [("message", .jstr " hi ")])) =
      .ok (⟨[⟨1, ⟨1, "alice"⟩, ⟨2, "bob"⟩⟩], [⟨1, ⟨1, "alice"⟩, "hi", 0⟩], 1, 2⟩,
        [⟨"ch_alice", "hi", "alice"⟩, ⟨"ch_bob", "hi", "alice"⟩])
    ∧ (⟨"ch_alice", "hi", "alice"⟩ : Delivery) ∈
        [(⟨"ch_alice", "hi", "alice"⟩ : Delivery), ⟨"ch_bob", "hi", "alice"⟩] := by
  have h := receive_valid_message_broadcasts db0 [("chat_1", ["ch_alice", "ch_bob"])]
    s0 ⟨1, "alice"⟩ [("message", Json.jstr " hi ")] " hi " rfl rfl (by decide) (by decide)
  exact ⟨h.1, h.2 (by decide)⟩

/-- Counterexample to C4 as stated: the inbound frame `5` is valid JSON
but not parseable as the expected structure (an object with a `message`
text field), yet `receive` is not a silent discard — `data.get` on the
decoded integer raises an `AttributeError` that the code (which catches
only `json.JSONDecodeError`) lets escape the handler, modelled by
`.error ()`. -/
theorem receive_nonobject_raises :
    receive db0 [] s0 (.ok (.jnum 5)) = .error () := rfl

/-- C4 amended: a frame that fails JSON decoding is silently discarded
with no append, no broadcast and the connection open; a decoded object
without a `message` key is treated as carrying the empty string and
likewise dropped; but a decoded payload that is not an object, or whose
`message` field is not a string, raises an uncaught error instead of
being silently discarded. -/
theorem receive_malformed_amended (db : DB) (groups : Groups) (s : Session)
    (fields : List (String × Json)) (j : Json) :
    receive db groups s .fail = .ok (db, [])
    ∧ (fields.lookup "message" = none →
        receive db groups s (.ok (.jobj fields)) = .ok (db, []))
    ∧ ((∀ fs, j ≠ .jobj fs) → receive db groups s (.ok j) = .error ())
    ∧ (∀ v, fields.lookup "message" = some v → (∀ t, v ≠ .jstr t) →
        receive db groups s (.ok (.jobj fields)) = .error ()) := by
  refine ⟨rfl, ?_, ?_, ?_⟩
  · intro h
    simp [receive, h]
  · intro h
    cases j with
    | jobj fs => exact absurd rfl (h fs)
    | jnull => rfl
    | jbool b => rfl
    | jnum n => rfl
    | jstr t => rfl
    | jarr xs => rfl
  · intro v hv hns
    cases v with
    | jstr t => exact absurd rfl (hns t)
    | jnull => simp [receive, hv]
    | jbool b => simp [receive, hv]
    | jnum n => simp [receive, hv]
    | jarr xs => simp [receive, hv]
    | jobj fs => simp [receive, hv]

/-- Witness for C4 amended: an undecodable frame and an object without a
`message` key are dropped silently; a JSON array and an object whose
`message` field is a number both escape as errors. -/
theorem receive_malformed_amended_witness :
    receive db0 [] s0 .fail = .ok (db0, [])
    ∧ receive db0 [] s0 (.ok (.jobj [("other", .jstr "x")])) = .ok (db0, [])
    ∧ receive db0 [] s0 (.ok (.jarr [])) = .error ()
    ∧ receive db0 [] s0 (.ok (.jobj [("message", .jnum 3)])) = .error () := by
  have h₁ := receive_malformed_amended db0 [] s0 [("other", Json.jstr "x")] (Json.jarr [])
  have h₂ := receive_malformed_amended db0 [] s0 [("message", Json.jnum 3)] (Json.jarr [])
  refine ⟨h₁.1, h₁.2.1 rfl, h₁.2.2.1 ?_, h₂.2.2.2 (Json.jnum 3) rfl ?_⟩
  · intro fs h
    cases h
  · intro t h
    cases h

/-- Counterexample to C7 as stated: carol (id 3) is not a participant of
room 1, yet `save_message` accepts her append — it returns `true` and
stores the row — because the code checks membership only at connect time,
never in `save_message`. -/
theorem save_message_accepts_nonmember :
    is_room_member db0 1 ⟨3, "carol"⟩ = false
    ∧ save_message db0 1 ⟨3, "carol"⟩ "hey" =
        (⟨[⟨1, ⟨1, "alice"⟩, ⟨2, "bob"⟩⟩], [⟨1, ⟨3, "carol"⟩, "hey", 0⟩], 1, 2⟩, true) :=
  ⟨by decide, by decide⟩

/-- C7 amended: the Message Log's append performs no sender-membership
check — whenever the target room exists, the append succeeds and stores
the message for any sender whatsoever; sender authorization is enforced
only at connect time by the gateway. -/
theorem save_message_no_membership_check (db : DB) (room_id : Nat) (u : User)
    (t : String) (r : ChatRoom)
    (hfind : db.rooms.find? (fun rm => rm.id == room_id) = some r) :
    save_message db room_id u t =
      ({ db with
          messages := db.messages ++ [⟨r.id, u, t, db.now⟩],
          now := db.now + 1 }, true) := by
  simp [save_message, hfind]

/-- Witness for C7 amended: carol's append to room 1 of `db0` succeeds
and stores her row even though she is not a participant. -/
theorem save_message_no_membership_check_witness :
    save_message db0 1 ⟨3, "carol"⟩ "hey" =
      (⟨[⟨1, ⟨1, "alice"⟩, ⟨2, "bob"⟩⟩], [⟨1, ⟨3, "carol"⟩, "hey", 0⟩], 1, 2⟩, true) :=
  save_message_no_membership_check db0 1 ⟨3, "carol"⟩ "hey"
    ⟨1, ⟨1, "alice"⟩, ⟨2, "bob"⟩⟩ rfl


/-- A room whose unordered participant pair coincides (by user id) with a
pair matching the filter for `me` and `other` matches that filter as
well. -/
theorem samePair_pairFilter (a x : ChatRoom) (me other : User)
    (hx : (x.user1.id = me.id ∧ x.user2.id = other.id) ∨
      (x.user1.id = other.id ∧ x.user2.id = me.id))
    (h : samePair a x) : pairFilter me other a = true := by
  simp only [samePair] at h
  simp only [pairFilter, userEq, Bool.or_eq_true, Bool.and_eq_true, beq_iff_eq]
  omega

/-- C8: chat initiation (`start_chat`) only ever adds rooms whose two
participants are distinct and stored sorted by user id
(`user1.id < user2.id`) and which match the initiating pair; it preserves
the invariant that no two rooms share an unordered participant pair; and
for a distinct pair that already has a room it returns that room,
creating nothing. -/
theorem start_chat_spec (db : DB) (me other : User) :
    (∀ r ∈ (start_chat db me other).1.rooms,
        r ∈ db.rooms ∨ (r.user1.id < r.user2.id ∧ pairFilter me other r = true))
    ∧ (noDupPairs db.rooms → noDupPairs (start_chat db me other).1.rooms)
    ∧ (userEq me other = false →
        ∀ c, db.rooms.find? (pairFilter me other) = some c →
          start_chat db me other = (db, .room c.id)) := by
  by_cases hself : userEq me other = true
  · refine ⟨?_, ?_, ?_⟩
    · intro r hr
      rw [start_chat, if_pos hself] at hr
      exact Or.inl hr
    · intro h
      rw [start_chat, if_pos hself]
      exact h
    · intro h
      rw [h] at hself
      cases hself
  · have hne : me.id ≠ other.id := by
      simpa [userEq] using hself
    cases hfind : db.rooms.find? (pairFilter me other) with
    | some c =>
      have heq : start_chat db me other = (db, .room c.id) := by
        simp [start_chat, hself, hfind]
      refine ⟨?_, ?_, ?_⟩
      · intro r hr
        rw [heq] at hr
        exact Or.inl hr
      · intro h
        rw [heq]
        exact h
      · intro _ c' hc'
        have hcc : some c = some c' := hfind ▸ hc'
        obtain rfl : c = c' := Option.some.inj hcc
        exact heq
    | none =>
      have hnomatch : ∀ a ∈ db.rooms, pairFilter me other a = false := by
        intro a ha
        have := List.find?_eq_none.mp hfind a ha
        simpa using this
      have hx : ((if me.id ≤ other.id then me else other).id = me.id ∧
            (if me.id ≤ other.id then other else me).id = other.id) ∨
          ((if me.id ≤ other.id then me else other).id = other.id ∧
            (if me.id ≤ other.id then other else me).id = me.id) := by
        by_cases hle : me.id ≤ other.id
        · exact Or.inl ⟨by rw [if_pos hle], by rw [if_pos hle]⟩
        · exact Or.inr ⟨by rw [if_neg hle], by rw [if_neg hle]⟩
      have heq : start_chat db me other =
          ({ db with
              rooms := db.rooms ++
                [⟨db.nextRoomId,
                  if me.id ≤ other.id then me else other,
                  if me.id ≤ other.id then other else me⟩],
              nextRoomId := db.nextRoomId + 1 },
            .room db.nextRoomId) := by
        simp [start_chat, hself, hfind]
      refine ⟨?_, ?_, ?_⟩
      · intro r hr
        rw [heq] at hr
        rcases List.mem_append.mp hr with hr | hr
        · exact Or.inl hr
        · have hrx : r = ⟨db.nextRoomId,
              if me.id ≤ other.id then me else other,
              if me.id ≤ other.id then other else me⟩ := by
            simpa using hr
          subst hrx
          refine Or.inr ⟨?_, ?_⟩
          · by_cases hle : me.id ≤ other.id
            · simp only [if_pos hle]
              omega
            · simp only [if_neg hle]
              omega
          · simp only [pairFilter, userEq, Bool.or_eq_true, Bool.and_eq_true, beq_iff_eq]
            by_cases hle : me.id ≤ other.id
            · simp [hle]
            · simp [hle]
      · intro h
        rw [heq]
        refine List.pairwise_append.mpr ⟨h, List.pairwise_singleton _ _, ?_⟩
        intro a ha b hb hsp
        have hb' : b = ⟨db.nextRoomId,
            if me.id ≤ other.id then me else other,
            if me.id ≤ other.id then other else me⟩ := by
          simpa using hb
        subst hb'
        have hpf := samePair_pairFilter a
          ⟨db.nextRoomId,
            if me.id ≤ other.id then me else other,
            if me.id ≤ other.id then other else me⟩ me other hx hsp
        rw [hnomatch a ha] at hpf
        cases hpf
      · intro _ c hc
        have hcc : (none : Option ChatRoom) = some c := hfind ▸ hc
        exact Option.noConfusion hcc

/-- Witness for C8: on `db0` (which already holds room 1 for alice and
bob) the existing room has a sorted distinct pair, the
no-duplicate-pair invariant holds after initiation, and `start_chat` for
alice and bob returns room 1 without creating anything. -/
theorem start_chat_spec_witness :
    ((⟨1, ⟨1, "alice"⟩, ⟨2, "bob"⟩⟩ : ChatRoom) ∈ db0.rooms
      ∨ (1 < 2 ∧ pairFilter ⟨1, "alice"⟩ ⟨2, "bob"⟩ ⟨1, ⟨1, "alice"⟩, ⟨2, "bob"⟩⟩ = true))
    ∧ noDupPairs (start_chat db0 ⟨1, "alice"⟩ ⟨2, "bob"⟩).1.rooms
    ∧ start_chat db0 ⟨1, "alice"⟩ ⟨2, "bob"⟩ = (db0, .room 1) := by
  have h := start_chat_spec db0 ⟨1, "alice"⟩ ⟨2, "bob"⟩
  refine ⟨h.1 _ (by decide), h.2.1 ?_, h.2.2 (by decide) ⟨1, ⟨1, "alice"⟩, ⟨2, "bob"⟩⟩ rfl⟩
  simp [noDupPairs, db0]

/-- C9: the read path of a room's messages is always sorted by the
server-assigned timestamp; whenever the message table is in
nondecreasing-timestamp order the (stable) read returns the room's rows
exactly in insertion order, so equal timestamps are tie-broken by
insertion order; `save_message` preserves that well-formedness; and after
appending "hi" and then "still there?" to an empty room 42 the log reads
back exactly those two rows in that order. -/
theorem roomMessages_ordered (db : DB) (room_id : Nat) (u : User) (t : String) :
    List.Sorted (fun a b => a.timestamp ≤ b.timestamp) (roomMessages db room_id)
    ∧ ((db.messages.Pairwise fun a b => a.timestamp ≤ b.timestamp) →
        roomMessages db room_id = db.messages.filter (fun m => m.room == room_id))
    ∧ (wfDB db → wfDB (save_message db room_id u t).1)
    ∧ roomMessages
        (save_message
          (save_message ⟨[⟨42, ⟨1, "A"⟩, ⟨2, "B"⟩⟩], [], 0, 43⟩ 42 ⟨1, "A"⟩ "hi").1
          42 ⟨1, "A"⟩ "still there?").1 42
      = [⟨42, ⟨1, "A"⟩, "hi", 0⟩, ⟨42, ⟨1, "A"⟩, "still there?", 1⟩] := by
  refine ⟨?_, ?_, ?_, ?_⟩
  · exact @List.sorted_insertionSort Message (fun a b => a.timestamp ≤ b.timestamp) _
      ⟨fun a b => Nat.le_total a.timestamp b.timestamp⟩
      ⟨fun a b c hab hbc => Nat.le_trans hab hbc⟩ _
  · intro h
    exact List.Sorted.insertionSort_eq (h.filter _)
  · rintro ⟨hp, hb⟩
    unfold save_message
    cases hfind : db.rooms.find? (fun r => r.id == room_id) with
    | none => exact ⟨hp, hb⟩
    | some r =>
      constructor
      · refine List.pairwise_append.mpr ⟨hp, List.pairwise_singleton _ _, ?_⟩
        intro a ha b hbmem
        have hb' : b = ⟨r.id, u, t, db.now⟩ := by simpa using hbmem
        subst hb'
        exact Nat.le_of_lt (hb a ha)
      · intro m hm
        rcases List.mem_append.mp hm with hm | hm
        · exact Nat.lt_succ_of_lt (hb m hm)
        · have hm' : m = ⟨r.id, u, t, db.now⟩ := by simpa using hm
          subst hm'
          exact Nat.lt_succ_self _
  · decide

/-- Witness for C9: on `db0` (empty message table) the read equals the
filtered table, and one append keeps the table well-formed. -/
theorem roomMessages_ordered_witness :
    roomMessages db0 1 = db0.messages.filter (fun m => m.room == 1)
    ∧ wfDB (save_message db0 1 ⟨1, "alice"⟩ "hi").1 := by
  have h := roomMessages_ordered db0 1 ⟨1, "alice"⟩ "hi"
  refine ⟨h.2.1 ?_, h.2.2.1 ?_⟩
  · simp [db0]
  · constructor
    · simp [db0]
    · intro m hm
      simp [db0] at hm
